import Mathlib

/-!
Verification of the FlowStrategy core runtime (shallow embedding).

This file embeds, in Lean 4, the parts of the FlowStrategy repository that
the verified claims are about:

* `core/configs/enums.py` and `core/configs/policies.py` — priority tiers,
  pipeline states/modes, log and event policies;
* `core/events/router.py` — the per-pipeline `EventRouter`
  (`publish` with its `trace_publish` decorator, `_dispatch_now` with its
  `trace_dispatch` decorator, `process_deferred`, `subscribe`);
* `core/runtime/pipeline.py` — the `Pipeline` state machine
  (`start`/`pause`/`resume`/`stop`/`trigger`), the `step` algorithm with its
  strategy-chain walk, error containment, deferred flush and pacing, and the
  copy-on-write chain edits;
* `core/runtime/executor.py` — the `PipelineExecutor` sweep body;
* `core/exceptions.py` — the exception classes the control flow branches on.

Machine floats (`time.perf_counter` readings, delta times) are modelled as
integer ticks supplied to `step` as explicit inputs: an order- and
subtraction-respecting sample of the float timeline, which is all the code
inspects (comparisons with zero and with the pacing threshold).  Python exceptions are modelled by an explicit
outcome value threaded next to the state (Python mutations performed before a
raise survive the raise, so every operation returns its post-state together
with an optional exception).  Subscriber callbacks are opaque user code; they
are modelled by an environment mapping callback ids to a small action
language (do nothing, subscribe, unsubscribe, publish a deferred event,
raise) which covers the behaviours the claims quantify over.  Dispatch over
Python's live list iterator is modelled index by index with a fuel bound,
because a callback that keeps subscribing new callbacks makes the real loop
diverge.
-/

namespace FlowStrategy

/-! ## Enums (`core/configs/enums.py`) -/

/-- `EventPriority` from `core/configs/enums.py`. -/
inductive EventPriority where
  | DEFERRED
  | IMMEDIATE
  | INTERRUPT
  | CRITICAL
deriving DecidableEq, Repr

/-- The `IntEnum` values 10/20/30/40, used for the `>=` comparisons in the router. -/
def EventPriority.toNat : EventPriority → Nat
  | .DEFERRED => 10
  | .IMMEDIATE => 20
  | .INTERRUPT => 30
  | .CRITICAL => 40

/-- `EventRule` from `core/configs/enums.py`. -/
inductive EventRule where
  | NORMAL
  | SILENT
  | DROP
deriving DecidableEq, Repr

/-- `PipelineState` from `core/configs/enums.py`. -/
inductive PipelineState where
  | IDLE
  | RUNNING
  | PAUSED
  | TERMINATED
deriving DecidableEq, Repr

/-- `PipelineMode` from `core/configs/enums.py`. -/
inductive PipelineMode where
  | SINGLE
  | LOOP
  | CONDITIONAL
deriving DecidableEq, Repr

/-! ## Policies (`core/configs/policies.py`) -/

/-- `LogLevel` bit values (`IntFlag`): INFO=1, WARNING=2, ERROR=4, ALL=7, NONE=0. -/
def LogLevel.NONE : Nat := 0

def LogLevel.INFO : Nat := 1

def LogLevel.WARNING : Nat := 2

def LogLevel.ERROR : Nat := 4

def LogLevel.ALL : Nat := 7

/-- `LogPolicy` value object: an immutable bitmask over log levels. -/
structure LogPolicy where
  allowed_mask : Nat
deriving DecidableEq, Repr

/-- `LogPolicy.is_allowed`: ALL/NONE fast paths, then the bitmask test. -/
def LogPolicy.is_allowed (p : LogPolicy) (level : Nat) : Bool :=
  if p.allowed_mask = LogLevel.ALL then true
  else if p.allowed_mask = LogLevel.NONE then false
  else p.allowed_mask &&& level ≠ 0

/-- `LogPolicy.default()`: mask ALL. -/
def LogPolicy.default : LogPolicy := ⟨LogLevel.ALL⟩

/-- `EventPolicy` value object wrapping an `EventRule`. -/
structure EventPolicy where
  rule : EventRule
deriving DecidableEq, Repr

/-- `EventPolicy.is_mute`: SILENT or DROP. -/
def EventPolicy.is_mute (p : EventPolicy) : Bool :=
  p.rule = EventRule.SILENT ∨ p.rule = EventRule.DROP

/-- `EventPolicy.is_dropped`: DROP. -/
def EventPolicy.is_dropped (p : EventPolicy) : Bool :=
  p.rule = EventRule.DROP

/-- `EventPolicy.normal()`. -/
def EventPolicy.normal : EventPolicy := ⟨EventRule.NORMAL⟩

/-- `EventPolicy.silent()`. -/
def EventPolicy.silent : EventPolicy := ⟨EventRule.SILENT⟩

/-- `EventPolicy.drop()`. -/
def EventPolicy.drop : EventPolicy := ⟨EventRule.DROP⟩

/-! ## Exception classes (`core/exceptions.py` plus Python builtins)

Only the classes the embedded control flow distinguishes are modelled.
Subclassing facts used: every class below is an `Exception`;
`strategyExecutionError` is the only `StrategyExecutionError`;
`pipelineCriticalError` is the only `PipelineCriticalError`;
the router's CRITICAL branch raises a bare `Exception` (`plainException`);
`attributeError` and `zeroDivisionError` are the Python builtins raised by
the missing `_last_time` read and by `1.0 / max_fps` at `max_fps = 0`. -/

inductive ExcClass where
  | attributeError
  | strategyExecutionError
  | pipelineCriticalError
  | plainException
  | zeroDivisionError
deriving DecidableEq, Repr

/-! ## Router state (`core/events/router.py`, `EventRouter.__init__`) -/

/-- Log emissions of the router, abstracted to their call sites. -/
inductive LogEvent where
  | pubInfo (topic sender : Nat) (priority : EventPriority)
  | noSubWarn (topic : Nat)
  | dispatchInfo (topic n : Nat)
  | handlerErr (topic cb : Nat) (e : ExcClass)
  | flushInfo
  | unboundWarn
deriving DecidableEq, Repr

/-- Pointwise update of a total map, used to model Python dict writes. -/
def updFn {α : Type} (f : Nat → α) (k : Nat) (v : α) : Nat → α :=
  fun k2 => if k2 = k then v else f k2

/-- The mutable state of one `EventRouter`.  Topics, payloads and callbacks
are opaque and keyed by `Nat`.  `frameInterrupted` is the owning pipeline's
`_frame_interrupted` flag, reached through the router's back-reference
(`self._pipeline.request_frame_interrupt()`); `pipelineBound` is the
truthiness of that back-reference.  `calls` is the observable trace of
subscriber-callback invocations (callback id, payload); `enqTrace` is the
trace of appends to the deferred queue; `stuck` records that the live-list
dispatch loop exhausted its fuel with subscribers still pending (a run the
fuel bound cannot finish). -/
structure RouterState where
  subscribers : Nat → List Nat
  deferredQueue : List (Nat × Nat)
  eventPolicies : Nat → Option EventPolicy
  logPolicy : LogPolicy
  pipelineBound : Bool
  frameInterrupted : Bool
  logs : List LogEvent
  calls : List (Nat × Nat)
  enqTrace : List (Nat × Nat)
  stuck : Bool

/-- `self._event_policies.get(event_type, EventPolicy.normal())` in `trace_publish`. -/
def resolvePolicy (st : RouterState) (topic : Nat) : EventPolicy :=
  (st.eventPolicies topic).getD EventPolicy.normal

/-- The `trace_publish` decorator up to the call of the wrapped `publish`:
`none` means the DROP early-return fired (the wrapped function never runs);
otherwise the state, with the `[PUB]` INFO line appended when the double
gate (router log policy allows INFO, or priority ≥ INTERRUPT) lets it
through and the policy is not SILENT. -/
def tracePublishGate (st : RouterState) (topic sender : Nat)
    (priority : EventPriority) : Option RouterState :=
  if (resolvePolicy st topic).is_dropped then none
  else if (resolvePolicy st topic).is_mute then some st
  else if st.logPolicy.is_allowed LogLevel.INFO
          || EventPriority.INTERRUPT.toNat ≤ priority.toNat then
    some { st with logs := st.logs ++ [.pubInfo topic sender priority] }
  else some st

/-- `self._deferred_queue.append((event_type, data))`, with its ghost trace. -/
def pushDeferred (st : RouterState) (topic data : Nat) : RouterState :=
  { st with
      deferredQueue := st.deferredQueue ++ [(topic, data)]
      enqTrace := st.enqTrace ++ [(topic, data)] }

/-- `EventRouter.subscribe`: append to the topic's list (defaultdict). -/
def RouterState.subscribeCb (st : RouterState) (topic cb : Nat) : RouterState :=
  { st with subscribers := updFn st.subscribers topic (st.subscribers topic ++ [cb]) }

/-! ## Subscriber callbacks

Callbacks are user code outside the repository; the claims quantify over
"any subscriber configuration".  They are modelled by ids mapped, through an
environment, to one of the actions a handler can perform on the router it
was registered with: nothing, `router.subscribe(t, c)`, removing `c` from
`router._subscribers[t]` (Python `list.remove`, which raises when absent),
`router.publish(t, d)` at the default DEFERRED priority (which never
re-enters the dispatch loop), or raising. -/

inductive CbAction where
  | noop
  | subscribeTo (topic cb : Nat)
  | unsubscribeFrom (topic cb : Nat)
  | publishDeferredTo (topic data : Nat)
  | raiseErr (e : ExcClass)

/-- Run one callback on the router state: `callback(data)` inside
`_dispatch_now`.  Returns the post-state (mutations before a raise survive)
and the exception, if the callback raised one. -/
def invokeCb (env : Nat → CbAction) (st : RouterState) (cb data : Nat) :
    RouterState × Option ExcClass :=
  let st := { st with calls := st.calls ++ [(cb, data)] }
  match env cb with
  | .noop => (st, none)
  | .subscribeTo t c => (st.subscribeCb t c, none)
  | .unsubscribeFrom t c =>
      if c ∈ st.subscribers t then
        ({ st with subscribers := updFn st.subscribers t ((st.subscribers t).erase c) }, none)
      else (st, some .plainException)
  | .publishDeferredTo t d =>
      match tracePublishGate st t cb .DEFERRED with
      | none => (st, none)
      | some st2 => (pushDeferred st2 t d, none)
  | .raiseErr e => (st, some e)

/-- One loop body of `_dispatch_now`: `callback(data)` under its own
`try/except Exception` — a raise is logged (`Handler Error in ...`) and
delivery continues with the next subscriber. -/
def afterInvoke (env : Nat → CbAction) (topic : Nat) (st : RouterState)
    (cb data : Nat) : RouterState :=
  match invokeCb env st cb data with
  | (st1, some e) => { st1 with logs := st1.logs ++ [.handlerErr topic cb e] }
  | (st1, none) => st1

/-- The `for callback in self._subscribers[event_type]` loop of
`_dispatch_now`.  The subscriber list is NOT snapshotted (the copy is
commented out in the source); Python's list iterator walks the live list by
index, so the list is re-read from the current state at every position. -/
def dispatchLoop (env : Nat → CbAction) (topic data : Nat) :
    Nat → Nat → RouterState → RouterState
  | 0, i, st =>
      if i < (st.subscribers topic).length then { st with stuck := true } else st
  | fuel + 1, i, st =>
      if h : i < (st.subscribers topic).length then
        dispatchLoop env topic data fuel (i + 1)
          (afterInvoke env topic st (st.subscribers topic)[i] data)
      else st

/-- `EventRouter._dispatch_now` with its `trace_dispatch` decorator: log the
dispatch (or the no-subscriber warning) when INFO is allowed, then run the
live-list loop. -/
def dispatchNow (env : Nat → CbAction) (fuel : Nat) (st : RouterState)
    (topic data : Nat) : RouterState :=
  let st :=
    if st.logPolicy.is_allowed LogLevel.INFO then
      if (st.subscribers topic).isEmpty then
        { st with logs := st.logs ++ [.noSubWarn topic] }
      else
        { st with logs := st.logs ++ [.dispatchInfo topic (st.subscribers topic).length] }
    else st
  dispatchLoop env topic data fuel 0 st

/-- `EventRouter.publish` (decorated by `trace_publish`).  Returns the
post-state and `some e` when the call raises `e`:
CRITICAL raises a bare `Exception`; IMMEDIATE/INTERRUPT dispatch
synchronously and INTERRUPT additionally sets the owning pipeline's
frame-interrupt flag (or warns when the back-reference is unbound);
everything else appends to the deferred queue. -/
def publish (env : Nat → CbAction) (fuel : Nat) (st : RouterState)
    (topic data sender : Nat) (priority : EventPriority) :
    RouterState × Option ExcClass :=
  match tracePublishGate st topic sender priority with
  | none => (st, none)
  | some st1 =>
    if priority = .CRITICAL then
      (st1, some .plainException)
    else if EventPriority.IMMEDIATE.toNat ≤ priority.toNat then
      let st2 := dispatchNow env fuel st1 topic data
      if priority = .INTERRUPT then
        if st2.pipelineBound then ({ st2 with frameInterrupted := true }, none)
        else ({ st2 with logs := st2.logs ++ [.unboundWarn] }, none)
      else (st2, none)
    else (pushDeferred st1 topic data, none)

/-- The `for _ in range(count): popleft; dispatch` drain of
`process_deferred`, also returning the list of entries it popped. -/
def drainLoop (env : Nat → CbAction) (fuel : Nat) :
    Nat → RouterState → List (Nat × Nat) → RouterState × List (Nat × Nat)
  | 0, st, acc => (st, acc)
  | count + 1, st, acc =>
      match st.deferredQueue with
      | [] => (st, acc)
      | e :: rest =>
          let st1 := { st with deferredQueue := rest }
          let st2 := dispatchNow env fuel st1 e.1 e.2
          drainLoop env fuel count st2 (acc ++ [e])

/-- `EventRouter.process_deferred`: when the queue is non-empty, log the
flush (if INFO allowed) and drain exactly `len(self._deferred_queue)`
entries.  Also returns the popped entries, in pop order. -/
def processDeferred (env : Nat → CbAction) (fuel : Nat) (st : RouterState) :
    RouterState × List (Nat × Nat) :=
  if st.deferredQueue.isEmpty then (st, [])
  else
    let st1 :=
      if st.logPolicy.is_allowed LogLevel.INFO then
        { st with logs := st.logs ++ [.flushInfo] }
      else st
    drainLoop env fuel st.deferredQueue.length st1 []

/-! ## Strategies (`core/interfaces/ecs.py`, consumed by `Pipeline.step`)

A strategy is opaque user code with contract
`execute(frame|None) -> (success, frame|None)`.  During `execute` it may
call the pipeline router's `publish` (this is how a CRITICAL escalation
originates "inside the strategy chain") and it may raise.  Frames are
opaque ids; every frame object has the idempotent `release()` method of
`core/ecs/frame.py`.  `sid` models Python object identity (`list.remove`
and the `in` test compare by it); `sname` models `strategy.name`. -/

/-- Result of a `strategy.execute` call after its publishes went through:
the returned `(success, frame|None)` pair, or a raised exception. -/
inductive StratRet where
  | ret (success : Bool) (out : Option Nat)
  | raised (e : ExcClass)

/-- A modelled strategy: identity, name, the publishes it performs during
`execute` (as a function of the input frame), and its result. -/
structure Strategy where
  sid : Nat
  sname : Nat
  pubs : Option Nat → List (Nat × Nat × EventPriority)
  res : Option Nat → StratRet

/-! ## Pipeline state (`core/runtime/pipeline.py`) -/

/-- Log emissions of the pipeline, abstracted to their call sites.
(Lifecycle INFO messages with no branching value are elided;
`stratError` is the `except StrategyExecutionError` line and
`unexpectedError` the `except Exception` line of the chain walk.) -/
inductive PLog where
  | cannotRestart
  | stratError (sname : Nat) (e : ExcClass)
  | unexpectedError (sname : Nat) (e : ExcClass)
  | interruptWarn (frameIdx : Nat)
  | frameDropWarn
  | stratAdded (sname : Nat)
  | stratRemoved (sname : Nat)
  | removeNotFound
deriving DecidableEq, Repr

/-- The mutable state of one `Pipeline` together with its context and its
router.  `lastTime` is `self._last_time`: `none` models the attribute being
absent (it is never assigned in `__init__`), and reading it while `none`
raises `AttributeError`.  `frameIndex`/`deltaTime` are the
`PipelineContext` fields.  `frameReleased` is the heap of frame
`_released` flags; `execTrace` is the observable trace of
`strategy.execute` invocations (by strategy name).  The config fields
`maxFps`, `enableFpsControl`, `enableProfiling` are copied from
`PipelineConfig`. -/
structure PipelineSt where
  mode : PipelineMode
  pstate : PipelineState
  triggerSet : Bool
  lastTime : Option ℤ
  frameIndex : Nat
  deltaTime : ℤ
  strategies : List Strategy
  router : RouterState
  frameReleased : Nat → Bool
  execTrace : List Nat
  maxFps : ℤ
  enableFpsControl : Bool
  enableProfiling : Bool
  pLogs : List PLog

/-! ### Lifecycle methods -/

/-- `Pipeline.start`: refuse on TERMINATED (with an error log); otherwise
clear the CONDITIONAL trigger and go RUNNING. -/
def Pipeline.start (p : PipelineSt) : PipelineSt :=
  if p.pstate = .TERMINATED then
    { p with pLogs := p.pLogs ++ [.cannotRestart] }
  else
    let p :=
      if p.mode = .CONDITIONAL then { p with triggerSet := false } else p
    { p with pstate := .RUNNING }

/-- `Pipeline.trigger`: in CONDITIONAL mode set the trigger flag. -/
def Pipeline.trigger (p : PipelineSt) : PipelineSt :=
  if p.mode = .CONDITIONAL then { p with triggerSet := true } else p

/-- `Pipeline.pause`: RUNNING → PAUSED only. -/
def Pipeline.pause (p : PipelineSt) : PipelineSt :=
  if p.pstate = .RUNNING then { p with pstate := .PAUSED } else p

/-- `Pipeline.resume`: PAUSED → RUNNING only. -/
def Pipeline.resume (p : PipelineSt) : PipelineSt :=
  if p.pstate = .PAUSED then { p with pstate := .RUNNING } else p

/-- `Pipeline.cleanup`: call each strategy's `cleanup` (no modelled effect
on pipeline state; errors there are logged and swallowed), clear the
strategy list in place, and clear the context
(`frame_index`/`delta_time`/data store reset). -/
def Pipeline.cleanup (p : PipelineSt) : PipelineSt :=
  { p with strategies := [], frameIndex := 0, deltaTime := 0 }

/-- `Pipeline.stop`: any non-terminal state → TERMINATED, then `cleanup`.
Idempotent. -/
def Pipeline.stop (p : PipelineSt) : PipelineSt :=
  if p.pstate ≠ .TERMINATED then
    Pipeline.cleanup { p with pstate := .TERMINATED }
  else p

/-- `Pipeline.request_frame_interrupt` (also reachable through the router's
back-reference). -/
def Pipeline.requestFrameInterrupt (p : PipelineSt) : PipelineSt :=
  { p with router := { p.router with frameInterrupted := true } }

/-! ### Structural edits (copy-on-write, flat-list view)

The aliasing content of these edits (new list object vs in-place mutation)
is modelled separately for claim C9; here the edits act on the value of the
chain. -/

/-- Python `list.insert(i, x)` for a non-negative index (clamps past the
end to an append). -/
def pyInsert {α : Type} (l : List α) (i : Nat) (x : α) : List α :=
  l.take i ++ x :: l.drop i

/-- Remove the first element with the given object identity
(Python `list.remove(strategy)`). -/
def eraseBySid (k : Nat) : List Strategy → List Strategy
  | [] => []
  | t :: ts => if t.sid = k then ts else t :: eraseBySid k ts

/-- `Pipeline.add_strategy`: bind, copy, append, replace. -/
def Pipeline.addStrategy (s : Strategy) (p : PipelineSt) : PipelineSt :=
  { p with strategies := p.strategies ++ [s],
           pLogs := p.pLogs ++ [.stratAdded s.sname] }

/-- `Pipeline.insert_strategy`: bind, copy, insert, replace. -/
def Pipeline.insertStrategy (i : Nat) (s : Strategy) (p : PipelineSt) : PipelineSt :=
  { p with strategies := pyInsert p.strategies i s,
           pLogs := p.pLogs ++ [.stratAdded s.sname] }

/-- `Pipeline.remove_strategy`: warn when the object is not in the chain;
otherwise copy, remove the first occurrence, replace, and run the removed
strategy's `cleanup` (errors logged, not propagated). -/
def Pipeline.removeStrategy (s : Strategy) (p : PipelineSt) : PipelineSt :=
  if p.strategies.any (fun t => t.sid = s.sid) then
    { p with strategies := eraseBySid s.sid p.strategies,
             pLogs := p.pLogs ++ [.stratRemoved s.sname] }
  else { p with pLogs := p.pLogs ++ [.removeNotFound] }

/-- `Pipeline.remove_strategy_by_name`: first strategy with that name. -/
def Pipeline.removeStrategyByName (n : Nat) (p : PipelineSt) : PipelineSt :=
  match p.strategies.find? (fun s => s.sname = n) with
  | some s => Pipeline.removeStrategy s p
  | none => { p with pLogs := p.pLogs ++ [.removeNotFound] }

/-- `Pipeline.remove_strategy_by_index`: bounds-checked, then delegates. -/
def Pipeline.removeStrategyByIndex (i : Nat) (p : PipelineSt) : PipelineSt :=
  if h : i < p.strategies.length then
    Pipeline.removeStrategy p.strategies[i] p
  else { p with pLogs := p.pLogs ++ [.removeNotFound] }

/-! ### The step algorithm -/

/-- `current_data.release()` guarded by `if current_data and hasattr(...)`:
frames are truthy and always have `release`; `release` is idempotent. -/
def disposeFrame (p : PipelineSt) (cur : Option Nat) : PipelineSt :=
  match cur with
  | none => p
  | some fid => { p with frameReleased := updFn p.frameReleased fid true }

/-- Run the publishes a strategy performs during `execute`, in order; the
first raise aborts the remaining ones and propagates (state mutations
before the raise survive). -/
def runPubs (env : Nat → CbAction) (fuel : Nat) (sender : Nat) :
    List (Nat × Nat × EventPriority) → RouterState → RouterState × Option ExcClass
  | [], rst => (rst, none)
  | (t, d, pr) :: rest, rst =>
      match publish env fuel rst t d sender pr with
      | (rst1, some e) => (rst1, some e)
      | (rst1, none) => runPubs env fuel sender rest rst1

/-- The state effect of one `strategy.execute(current_data)` call: the
invocation is recorded on the trace, and the strategy's publishes run
through the router (mutations made before a raise survive the raise). -/
def execStrategySt (env : Nat → CbAction) (fuel : Nat) (s : Strategy)
    (cur : Option Nat) (p : PipelineSt) : PipelineSt :=
  { p with execTrace := p.execTrace ++ [s.sname],
           router := (runPubs env fuel s.sname (s.pubs cur) p.router).1 }

/-- The control-flow outcome of the same `strategy.execute(current_data)`
call: a raise from one of its publishes propagates out of `execute`;
otherwise the strategy returns its `(success, frame|None)` pair. -/
def execStrategyRet (env : Nat → CbAction) (fuel : Nat) (s : Strategy)
    (cur : Option Nat) (p : PipelineSt) : StratRet :=
  match (runPubs env fuel s.sname (s.pubs cur) p.router).2 with
  | some e => .raised e
  | none => s.res cur

/-- How the `for strategy in current_chain` loop was left:
`finished` covers normal completion and every `break`
(interrupt, `success=False`, caught raise); `earlyTerm` is the
mid-walk `return True` on a TERMINATED state. -/
inductive WalkExit where
  | finished
  | earlyTerm
deriving DecidableEq, Repr

/-- Result of the chain walk: pipeline state, the `current_data` variable,
the `did_work` flag, and how the loop exited. -/
structure WalkRes where
  p : PipelineSt
  cur : Option Nat
  didWork : Bool
  exit : WalkExit

/-- The strategy-chain walk of `Pipeline.step` (lines 177–221): per
strategy, the TERMINATED circuit-break (dispose and return True), the
frame-interrupt break (with optional profiling warning), then
`strategy.execute` under `except StrategyExecutionError` /
`except Exception` (log, dispose the pre-call frame, break) and the
`success=False` branch (dispose the returned frame, break).  A successful
call sets `did_work` and threads the returned frame. -/
def walkChain (env : Nat → CbAction) (fuel : Nat) :
    List Strategy → PipelineSt → Option Nat → Bool → WalkRes
  | [], p, cur, dw => ⟨p, cur, dw, .finished⟩
  | s :: rest, p, cur, dw =>
      if p.pstate = .TERMINATED then
        ⟨disposeFrame p cur, cur, dw, .earlyTerm⟩
      else if p.router.frameInterrupted then
        let p1 :=
          if p.enableProfiling then
            { p with pLogs := p.pLogs ++ [.interruptWarn p.frameIndex] }
          else p
        ⟨p1, cur, dw, .finished⟩
      else
        let p1 := execStrategySt env fuel s cur p
        match execStrategyRet env fuel s cur p with
        | .raised e =>
            let entry :=
              if e = .strategyExecutionError then PLog.stratError s.sname e
              else PLog.unexpectedError s.sname e
            let p2 := { p1 with pLogs := p1.pLogs ++ [entry] }
            ⟨disposeFrame p2 cur, cur, dw, .finished⟩
        | .ret false out =>
            ⟨disposeFrame p1 out, out, dw, .finished⟩
        | .ret true out =>
            walkChain env fuel rest p1 out true

/-- `Pipeline._handle_frame_pacing(duration)`: compute
`target_interval = 1.0 / max_fps` — at `max_fps = 0` this raises
`ZeroDivisionError`, returned here as the second component — then warn on
a frame drop (`duration > target_interval`) when profiling is enabled.
The catch-up sleep has no modelled state effect.  Because times are
integer ticks, the comparison with the rational `1 / maxFps` is taken in
exact arithmetic with the denominator cleared, respecting its sign:
for `maxFps > 0` it is `1 < duration * maxFps`, and for `maxFps < 0`
(where `1 / maxFps` is negative) it is `duration * maxFps < 1`. -/
def handleFramePacing (duration : ℤ) (p : PipelineSt) :
    PipelineSt × Option ExcClass :=
  if p.maxFps = 0 then (p, some .zeroDivisionError)
  else
    let droppedFrame : Bool :=
      if 0 < p.maxFps then 1 < duration * p.maxFps else duration * p.maxFps < 1
    if droppedFrame then
      if p.enableProfiling then
        ({ p with pLogs := p.pLogs ++ [.frameDropWarn] }, none)
      else (p, none)
    else (p, none)

/-- Outcome of a `step()` call: the returned `did_work`, or the exception
that propagated out of `step` uncaught. -/
inductive StepOutcome where
  | ret (didWork : Bool)
  | raised (e : ExcClass)
deriving DecidableEq, Repr

/-- The `finally` block of `step` (runs on every exit of the `try`): flush
deferred events, dispose the last `current_data`, and apply pacing with the
measured wall time `tB - tA`.  The second component is the exception the
`finally` block itself raised, if any (pacing's `ZeroDivisionError`). -/
def stepFinalize (env : Nat → CbAction) (fuel : Nat) (tA tB : ℤ)
    (w : WalkRes) : PipelineSt × Option ExcClass :=
  let p := w.p
  let p := { p with router := (processDeferred env fuel p.router).1 }
  let p := disposeFrame p w.cur
  handleFramePacing (tB - tA) p

/-- The bookkeeping of `step` between the successful `self._last_time`
read and the chain walk: delta-time (clamped at 0), anchor update, context
injection (`frame_index += 1`), and the frame-interrupt flag reset. -/
def stepPre (tA lt : ℤ) (p1 : PipelineSt) : PipelineSt :=
  let dt0 := tA - lt
  let dt := if dt0 < 0 then 0 else dt0
  { p1 with lastTime := some tA, deltaTime := dt,
            frameIndex := p1.frameIndex + 1,
            router := { p1.router with frameInterrupted := false } }

/-- `current_chain = self._strategies` loaded once, then the walk. -/
def stepWalk (env : Nat → CbAction) (fuel : Nat) (p3 : PipelineSt) : WalkRes :=
  walkChain env fuel p3.strategies p3 none false

/-- The body of `step` once the gates passed and `self._last_time` was
read successfully: bookkeeping, chain walk, the `finally` block, and —
only on the normal path, NOT on the mid-walk `return True` (a `return`
inside `try` runs `finally` and skips the code after it) — the SINGLE-mode
self-`stop()`.  When the `finally` block itself raises (pacing's
`ZeroDivisionError` at `max_fps = 0`), that exception replaces any pending
return value and propagates out of `step`, skipping the SINGLE-mode
self-stop as well. -/
def stepCore (env : Nat → CbAction) (fuel : Nat) (tA tB lt : ℤ)
    (p1 : PipelineSt) : PipelineSt × StepOutcome :=
  let w := stepWalk env fuel (stepPre tA lt p1)
  let fin := stepFinalize env fuel tA tB w
  match fin.2 with
  | some e => (fin.1, .raised e)
  | none =>
    match w.exit with
    | .earlyTerm => (fin.1, .ret true)
    | .finished =>
        (if fin.1.mode = .SINGLE then Pipeline.stop fin.1 else fin.1,
          .ret w.didWork)

/-- `Pipeline.step` with the wall-clock readings `tA` (frame start) and
`tB` (processing end) as inputs.  Gate on RUNNING; gate on the CONDITIONAL
trigger (edge-triggered: consume the flag); read `self._last_time` —
an `AttributeError` when the attribute was never assigned, raised before
the context is touched and before the `try/finally` is entered — then run
the step body. -/
def Pipeline.step (env : Nat → CbAction) (fuel : Nat) (tA tB : ℤ)
    (p : PipelineSt) : PipelineSt × StepOutcome :=
  if p.pstate ≠ .RUNNING then (p, .ret false)
  else if p.mode = .CONDITIONAL ∧ p.triggerSet = false then (p, .ret false)
  else
    let p1 := if p.mode = .CONDITIONAL then { p with triggerSet := false } else p
    match p1.lastTime with
    | none => (p1, .raised .attributeError)
    | some lt => stepCore env fuel tA tB lt p1

/-! ### Construction (`Pipeline.__init__` via `PipelineConfig`) -/

/-- The `PipelineConfig` fields the core reads (the `router_factory` is
modelled as the standard factory `EventRouter.create_standard_router`,
whose presence `__init__` checks eagerly). -/
structure PipelineConfig where
  mode : PipelineMode
  strategies : List Strategy
  maxFps : ℤ
  enableFpsControl : Bool
  enableProfiling : Bool
  eventPolicies : Nat → Option EventPolicy

/-- A freshly constructed standard router bound to its pipeline:
no subscribers, empty queue, default log policy. -/
def mkRouter (pols : Nat → Option EventPolicy) : RouterState :=
  { subscribers := fun _ => []
    deferredQueue := []
    eventPolicies := pols
    logPolicy := LogPolicy.default
    pipelineBound := true
    frameInterrupted := false
    logs := []
    calls := []
    enqTrace := []
    stuck := false }

/-- `Pipeline.__init__(config)`: build the router through the factory,
apply the configured event policies, fresh context, IDLE state, cleared
trigger and interrupt flags, then `add_strategy` for each configured
strategy.  No statement assigns `self._last_time`. -/
def mkPipeline (cfg : PipelineConfig) : PipelineSt :=
  cfg.strategies.foldl (fun p s => Pipeline.addStrategy s p)
    { mode := cfg.mode
      pstate := .IDLE
      triggerSet := false
      lastTime := none
      frameIndex := 0
      deltaTime := 0
      strategies := []
      router := mkRouter cfg.eventPolicies
      frameReleased := fun _ => false
      execTrace := []
      maxFps := cfg.maxFps
      enableFpsControl := cfg.enableFpsControl
      enableProfiling := cfg.enableProfiling
      pLogs := [] }

/-! ### Operation alphabet over a pipeline

Everything the public surface of `Pipeline` lets a caller do to one
pipeline object (used to quantify over "any lifecycle method" and arbitrary
call sequences). -/

inductive Op where
  | opStart
  | opPause
  | opResume
  | opStop
  | opTrigger
  | opStep (env : Nat → CbAction) (fuel : Nat) (tA tB : ℤ)
  | opAdd (s : Strategy)
  | opInsert (i : Nat) (s : Strategy)
  | opRemove (s : Strategy)
  | opRemoveByName (n : Nat)
  | opRemoveByIndex (i : Nat)
  | opRequestInterrupt
  | opCleanup

/-- Apply one public operation to a pipeline. -/
def applyOp (op : Op) (p : PipelineSt) : PipelineSt :=
  match op with
  | .opStart => Pipeline.start p
  | .opPause => Pipeline.pause p
  | .opResume => Pipeline.resume p
  | .opStop => Pipeline.stop p
  | .opTrigger => Pipeline.trigger p
  | .opStep env fuel tA tB => (Pipeline.step env fuel tA tB p).1
  | .opAdd s => Pipeline.addStrategy s p
  | .opInsert i s => Pipeline.insertStrategy i s p
  | .opRemove s => Pipeline.removeStrategy s p
  | .opRemoveByName n => Pipeline.removeStrategyByName n p
  | .opRemoveByIndex i => Pipeline.removeStrategyByIndex i p
  | .opRequestInterrupt => Pipeline.requestFrameInterrupt p
  | .opCleanup => Pipeline.cleanup p

/-- Apply a sequence of public operations, left to right. -/
def applyOps (ops : List Op) (p : PipelineSt) : PipelineSt :=
  ops.foldl (fun q op => applyOp op q) p

/-! ## EventHub and PipelineExecutor (`core/events/hub.py`, `core/runtime/executor.py`) -/

/-- `AlertLevel` from `core/events/protocol.py`. -/
inductive AlertLevel where
  | INFO
  | WARNING
  | ERROR
  | CRITICAL
deriving DecidableEq, Repr

/-- The injected `EventHub`, viewed through the executor's reporting path:
`alerts` records the levels of the `SystemAlertPayload`s published on the
`SYSTEM_ALERT` topic. -/
structure HubSt where
  alerts : List AlertLevel
deriving DecidableEq, Repr

/-- `PipelineExecutor._report_critical_error`: publish a
`SystemAlertPayload` with `level=CRITICAL` to the hub. -/
def reportCriticalError (hub : HubSt) : HubSt :=
  { hub with alerts := hub.alerts ++ [.CRITICAL] }

/-- One iteration of the `for pipe in current_pipelines` body of
`PipelineExecutor._loop`: skip-and-mark TERMINATED pipelines, otherwise
`step()` under `except PipelineCriticalError` (log, report the CRITICAL
alert, `pipe.stop()`) and `except Exception` (log and continue).
Returns (pipeline after, hub after, `did_work`, marked-for-removal). -/
def sweepPipe (env : Nat → CbAction) (fuel : Nat) (tA tB : ℤ)
    (hub : HubSt) (p : PipelineSt) : PipelineSt × HubSt × Bool × Bool :=
  if p.pstate = .TERMINATED then (p, hub, false, true)
  else
    match Pipeline.step env fuel tA tB p with
    | (p1, .ret d) => (p1, hub, d, false)
    | (p1, .raised e) =>
        if e = .pipelineCriticalError then
          (Pipeline.stop p1, reportCriticalError hub, false, false)
        else (p1, hub, false, false)

/-- One full sweep of the executor loop over the attached pipelines,
including the end-of-sweep removal of the marked ones.  Returns the
surviving pipelines in order, the hub, and whether any pipeline did work
(which decides the adaptive idle sleep). -/
def sweepAll (env : Nat → CbAction) (fuel : Nat) (tA tB : ℤ) :
    List PipelineSt → HubSt → List PipelineSt × HubSt × Bool
  | [], hub => ([], hub, false)
  | p :: rest, hub =>
      let (p1, hub1, dw, marked) := sweepPipe env fuel tA tB hub p
      let (others, hub2, dwr) := sweepAll env fuel tA tB rest hub1
      (if marked then others else p1 :: others, hub2, dw || dwr)

/-! ## Chain aliasing model for the copy-on-write edits (claim C9)

The flat-list pipeline model above cannot express "does this edit mutate
the previously installed chain object in place, or install a new object?",
which is exactly what claim C9 is about.  This auxiliary model makes the
heap explicit: list objects live at addresses, `cur` is the
`self._strategies` reference, and each edit is translated from the same
source lines as the flat versions.  A `step()` in flight holds the address
it loaded at its start (`current_chain = self._strategies`) and keeps
reading that cell. -/

/-- A heap of list objects (chain contents as strategy ids), an allocation
counter, and the pipeline's current chain reference. -/
structure CowChains where
  store : Nat → List Nat
  nextA : Nat
  cur : Nat

/-- `add_strategy` at the heap level: `list(self._strategies)` allocates a
fresh list object, `append` modifies it, `self._strategies = new_chain`
swaps the reference. -/
def cowAdd (s : Nat) (c : CowChains) : CowChains :=
  { store := updFn c.store c.nextA (c.store c.cur ++ [s])
    nextA := c.nextA + 1
    cur := c.nextA }

/-- `insert_strategy` at the heap level: copy, `insert(index, s)`, replace. -/
def cowInsert (i : Nat) (s : Nat) (c : CowChains) : CowChains :=
  { store := updFn c.store c.nextA (pyInsert (c.store c.cur) i s)
    nextA := c.nextA + 1
    cur := c.nextA }

/-- `remove_strategy` at the heap level: not-found warning path leaves
everything alone; otherwise copy, `remove(s)` (first occurrence), replace. -/
def cowRemove (s : Nat) (c : CowChains) : CowChains :=
  if s ∈ c.store c.cur then
    { store := updFn c.store c.nextA ((c.store c.cur).erase s)
      nextA := c.nextA + 1
      cur := c.nextA }
  else c

/-- `remove_strategy_by_name`: first strategy whose name matches, then
delegate to `remove_strategy`. -/
def cowRemoveByName (nameOf : Nat → Nat) (n : Nat) (c : CowChains) : CowChains :=
  match (c.store c.cur).find? (fun s => nameOf s = n) with
  | some s => cowRemove s c
  | none => c

/-- `remove_strategy_by_index`: bounds-checked, then delegate. -/
def cowRemoveByIndex (i : Nat) (c : CowChains) : CowChains :=
  if h : i < (c.store c.cur).length then
    cowRemove (c.store c.cur)[i] c
  else c

/-- `Pipeline.cleanup` at the heap level: `self._strategies.clear()`
empties the installed list object IN PLACE — same address, new contents. -/
def cowCleanup (c : CowChains) : CowChains :=
  { c with store := updFn c.store c.cur [] }

/-! ## Helper lemmas: router -/

theorem updFn_self {α : Type} (f : Nat → α) (k : Nat) (v : α) :
    updFn f k v k = v := by
  simp [updFn]

theorem updFn_other {α : Type} (f : Nat → α) (k k2 : Nat) (v : α)
    (h : k2 ≠ k) : updFn f k v k2 = f k2 := by
  simp [updFn, h]

/-- The `trace_publish` gate returns `none` exactly on a DROP policy. -/
theorem tracePublishGate_none_iff (st : RouterState) (topic sender : Nat)
    (priority : EventPriority) :
    tracePublishGate st topic sender priority = none ↔
      (resolvePolicy st topic).is_dropped = true := by
  unfold tracePublishGate
  split_ifs <;> simp_all

/-- Whatever the `trace_publish` gate does before the wrapped `publish`
runs, it can only append a log line: every other field is untouched. -/
theorem tracePublishGate_proj {st : RouterState} {topic sender : Nat}
    {priority : EventPriority} {st1 : RouterState}
    (h : tracePublishGate st topic sender priority = some st1) :
    st1.subscribers = st.subscribers ∧ st1.calls = st.calls ∧
    st1.deferredQueue = st.deferredQueue ∧ st1.enqTrace = st.enqTrace ∧
    st1.frameInterrupted = st.frameInterrupted ∧
    st1.pipelineBound = st.pipelineBound ∧
    st1.logPolicy = st.logPolicy ∧ st1.eventPolicies = st.eventPolicies ∧
    st1.stuck = st.stuck := by
  unfold tracePublishGate at h
  split_ifs at h <;> simp_all
  subst h
  simp

/-- True when the action, run as a callback, edits the given topic's
subscriber list. -/
def mutatesTopicB (a : CbAction) (topic : Nat) : Bool :=
  match a with
  | .subscribeTo t _ => t = topic
  | .unsubscribeFrom t _ => t = topic
  | _ => false

theorem invokeCb_calls (env : Nat → CbAction) (st : RouterState)
    (cb data : Nat) :
    (invokeCb env st cb data).1.calls = st.calls ++ [(cb, data)] := by
  unfold invokeCb
  cases henv : env cb with
  | noop => rfl
  | subscribeTo t c => rfl
  | unsubscribeFrom t c => dsimp only; split_ifs <;> rfl
  | publishDeferredTo t d =>
    dsimp only
    rcases hg : tracePublishGate { st with calls := st.calls ++ [(cb, data)] }
        t cb .DEFERRED with _ | st2
    · simp [hg]
    · have hp := tracePublishGate_proj hg
      simp [hg, pushDeferred, hp.2.1]
  | raiseErr e => rfl

theorem invokeCb_subscribers_of_no_mut (env : Nat → CbAction)
    (st : RouterState) (cb data topic : Nat)
    (h : mutatesTopicB (env cb) topic = false) :
    (invokeCb env st cb data).1.subscribers topic = st.subscribers topic := by
  unfold invokeCb
  cases henv : env cb with
  | noop => rfl
  | subscribeTo t c =>
    rw [henv] at h
    simp only [mutatesTopicB, decide_eq_false_iff_not] at h
    simp [RouterState.subscribeCb, updFn_other _ _ _ _ (Ne.symm h)]
  | unsubscribeFrom t c =>
    rw [henv] at h
    simp only [mutatesTopicB, decide_eq_false_iff_not] at h
    dsimp only
    split_ifs <;> simp [updFn_other _ _ _ _ (Ne.symm h)]
  | publishDeferredTo t d =>
    dsimp only
    rcases hg : tracePublishGate { st with calls := st.calls ++ [(cb, data)] }
        t cb .DEFERRED with _ | st2
    · simp [hg]
    · have hp := tracePublishGate_proj hg
      simp [hg, pushDeferred, hp.1]
  | raiseErr e => rfl

theorem afterInvoke_calls (env : Nat → CbAction) (topic : Nat)
    (st : RouterState) (cb data : Nat) :
    (afterInvoke env topic st cb data).calls = st.calls ++ [(cb, data)] := by
  have hc := invokeCb_calls env st cb data
  unfold afterInvoke
  rcases h : invokeCb env st cb data with ⟨st1, exc⟩
  rw [h] at hc
  cases exc <;> simpa using hc

theorem afterInvoke_subscribers_of_no_mut (env : Nat → CbAction)
    (topic : Nat) (st : RouterState) (cb data : Nat)
    (hm : mutatesTopicB (env cb) topic = false) :
    (afterInvoke env topic st cb data).subscribers topic =
      st.subscribers topic := by
  have hc := invokeCb_subscribers_of_no_mut env st cb data topic hm
  unfold afterInvoke
  rcases h : invokeCb env st cb data with ⟨st1, exc⟩
  rw [h] at hc
  cases exc <;> simpa using hc

/-- The live-list dispatch loop invokes exactly the subscribers of the
topic present in the state it starts from, in list order, provided no
invoked callback edits that topic's subscriber list (and the fuel covers
the list). -/
theorem dispatchLoop_calls (env : Nat → CbAction) (topic data : Nat)
    (hmut : ∀ cb, mutatesTopicB (env cb) topic = false) :
    ∀ fuel i st, (st.subscribers topic).length ≤ i + fuel →
      (dispatchLoop env topic data fuel i st).calls =
        st.calls ++ ((st.subscribers topic).drop i).map (fun cb => (cb, data)) := by
  intro fuel
  induction fuel with
  | zero =>
    intro i st hle
    unfold dispatchLoop
    rw [if_neg (by omega)]
    rw [List.drop_of_length_le (by omega)]
    simp
  | succ fuel ih =>
    intro i st hle
    unfold dispatchLoop
    by_cases h : i < (st.subscribers topic).length
    · rw [dif_pos h]
      have hsub := afterInvoke_subscribers_of_no_mut env topic st
        (st.subscribers topic)[i] data (hmut _)
      have hcalls := afterInvoke_calls env topic st (st.subscribers topic)[i] data
      rw [ih (i + 1) _ (by rw [hsub]; omega)]
      rw [hsub, hcalls]
      rw [List.drop_eq_getElem_cons h, List.map_cons, List.append_assoc,
        List.singleton_append]
    · rw [dif_neg h]
      rw [List.drop_of_length_le (by omega)]
      simp

/-- Same, at the `_dispatch_now` entry point (the `trace_dispatch` prefix
only logs). -/
theorem dispatchNow_calls (env : Nat → CbAction) (fuel : Nat)
    (st : RouterState) (topic data : Nat)
    (hmut : ∀ cb, mutatesTopicB (env cb) topic = false)
    (hfuel : (st.subscribers topic).length ≤ fuel) :
    (dispatchNow env fuel st topic data).calls =
      st.calls ++ (st.subscribers topic).map (fun cb => (cb, data)) := by
  unfold dispatchNow
  split_ifs <;>
    simpa using dispatchLoop_calls env topic data hmut fuel 0 _ (by simpa using hfuel)

/-! ## Helper lemmas: the deferred queue and its trace grow in lockstep -/

/-- `st1` extends `st` by appending the same block `d` to the deferred
queue and to the enqueue trace. -/
def queueExt (st st1 : RouterState) : Prop :=
  ∃ d, st1.deferredQueue = st.deferredQueue ++ d ∧
       st1.enqTrace = st.enqTrace ++ d

theorem queueExt_refl (st : RouterState) : queueExt st st :=
  ⟨[], by simp, by simp⟩

theorem queueExt_trans {a b c : RouterState}
    (h1 : queueExt a b) (h2 : queueExt b c) : queueExt a c := by
  obtain ⟨d1, hq1, he1⟩ := h1
  obtain ⟨d2, hq2, he2⟩ := h2
  exact ⟨d1 ++ d2, by simp [hq2, hq1], by simp [he2, he1]⟩

theorem invokeCb_queueExt (env : Nat → CbAction) (st : RouterState)
    (cb data : Nat) : queueExt st (invokeCb env st cb data).1 := by
  unfold invokeCb
  cases henv : env cb with
  | noop => exact queueExt_refl _
  | subscribeTo t c => exact ⟨[], by simp [RouterState.subscribeCb], by simp [RouterState.subscribeCb]⟩
  | unsubscribeFrom t c =>
    dsimp only
    split_ifs <;> exact ⟨[], by simp, by simp⟩
  | publishDeferredTo t d =>
    dsimp only
    rcases hg : tracePublishGate { st with calls := st.calls ++ [(cb, data)] }
        t cb .DEFERRED with _ | st2
    · simp only [hg]
      exact ⟨[], by simp, by simp⟩
    · have hp := tracePublishGate_proj hg
      simp only [hg]
      exact ⟨[(t, d)], by simp [pushDeferred, hp.2.2.1], by simp [pushDeferred, hp.2.2.2.1]⟩
  | raiseErr e => exact ⟨[], by simp, by simp⟩

theorem afterInvoke_queueExt (env : Nat → CbAction) (topic : Nat)
    (st : RouterState) (cb data : Nat) :
    queueExt st (afterInvoke env topic st cb data) := by
  have hq := invokeCb_queueExt env st cb data
  unfold afterInvoke
  rcases h : invokeCb env st cb data with ⟨st1, exc⟩
  rw [h] at hq
  obtain ⟨d, h1, h2⟩ := hq
  cases exc <;> exact ⟨d, by simpa using h1, by simpa using h2⟩

theorem dispatchLoop_queueExt (env : Nat → CbAction) (topic data : Nat) :
    ∀ fuel i st, queueExt st (dispatchLoop env topic data fuel i st) := by
  intro fuel
  induction fuel with
  | zero =>
    intro i st
    unfold dispatchLoop
    split_ifs <;> exact ⟨[], by simp, by simp⟩
  | succ fuel ih =>
    intro i st
    unfold dispatchLoop
    by_cases h : i < (st.subscribers topic).length
    · rw [dif_pos h]
      exact queueExt_trans (afterInvoke_queueExt env topic st _ data) (ih _ _)
    · rw [dif_neg h]
      exact queueExt_refl _

theorem dispatchNow_queueExt (env : Nat → CbAction) (fuel : Nat)
    (st : RouterState) (topic data : Nat) :
    queueExt st (dispatchNow env fuel st topic data) := by
  unfold dispatchNow
  split_ifs <;>
    · refine queueExt_trans ?_ (dispatchLoop_queueExt env topic data fuel 0 _)
      exact ⟨[], by simp, by simp⟩

/-- The count-bounded drain: it pops exactly the first `count` entries of
the starting queue (in order), and everything else that happened to the
queue during the drain is appends mirrored on the enqueue trace. -/
theorem drainLoop_spec (env : Nat → CbAction) (fuel : Nat) :
    ∀ count st acc, count ≤ st.deferredQueue.length →
      (drainLoop env fuel count st acc).2 = acc ++ st.deferredQueue.take count ∧
      ∃ new, (drainLoop env fuel count st acc).1.deferredQueue =
               st.deferredQueue.drop count ++ new ∧
             (drainLoop env fuel count st acc).1.enqTrace = st.enqTrace ++ new := by
  intro count
  induction count with
  | zero =>
    intro st acc _
    exact ⟨by simp [drainLoop], ⟨[], by simp [drainLoop], by simp [drainLoop]⟩⟩
  | succ count ih =>
    intro st acc hle
    rcases hq : st.deferredQueue with _ | ⟨e, rest⟩
    · rw [hq] at hle; simp at hle
    · have hrest : count ≤ rest.length := by
        rw [hq] at hle; simpa using hle
      unfold drainLoop
      rw [hq]
      dsimp only
      have hext := dispatchNow_queueExt env fuel
        { st with deferredQueue := rest } e.1 e.2
      obtain ⟨d, hdq, hde⟩ := hext
      simp only at hdq hde
      have hlen : count ≤ (dispatchNow env fuel { st with deferredQueue := rest } e.1 e.2).deferredQueue.length := by
        rw [hdq]; simp; omega
      obtain ⟨hacc, new2, hq2, he2⟩ := ih _ (acc ++ [e]) hlen
      refine ⟨?_, d ++ new2, ?_, ?_⟩
      · rw [hacc, hdq, List.take_append_of_le_length hrest]
        simp
      · rw [hq2, hdq, List.drop_append_of_le_length hrest]
        simp
      · rw [he2, hde]
        simp

/-! ## Helper lemmas: pipeline step -/

/-- The fields of a `PipelineSt` the chain walk and the `finally` block
never write (they only touch the router, the frame heap, the execution
trace and the logs). -/
def sameCore (p q : PipelineSt) : Prop :=
  p.mode = q.mode ∧ p.pstate = q.pstate ∧ p.triggerSet = q.triggerSet ∧
  p.lastTime = q.lastTime ∧ p.frameIndex = q.frameIndex ∧
  p.deltaTime = q.deltaTime ∧ p.strategies = q.strategies ∧
  p.maxFps = q.maxFps ∧ p.enableProfiling = q.enableProfiling ∧
  p.enableFpsControl = q.enableFpsControl

theorem sameCore_refl (p : PipelineSt) : sameCore p p :=
  ⟨rfl, rfl, rfl, rfl, rfl, rfl, rfl, rfl, rfl, rfl⟩

theorem sameCore_trans {p q r : PipelineSt}
    (h1 : sameCore p q) (h2 : sameCore q r) : sameCore p r := by
  obtain ⟨a1, a2, a3, a4, a5, a6, a7, a8, a9, a10⟩ := h1
  obtain ⟨b1, b2, b3, b4, b5, b6, b7, b8, b9, b10⟩ := h2
  exact ⟨a1.trans b1, a2.trans b2, a3.trans b3, a4.trans b4, a5.trans b5,
    a6.trans b6, a7.trans b7, a8.trans b8, a9.trans b9, a10.trans b10⟩

theorem disposeFrame_sameCore (p : PipelineSt) (cur : Option Nat) :
    sameCore (disposeFrame p cur) p := by
  cases cur <;> exact ⟨rfl, rfl, rfl, rfl, rfl, rfl, rfl, rfl, rfl, rfl⟩

theorem execStrategySt_sameCore (env : Nat → CbAction) (fuel : Nat)
    (s : Strategy) (cur : Option Nat) (p : PipelineSt) :
    sameCore (execStrategySt env fuel s cur p) p :=
  ⟨rfl, rfl, rfl, rfl, rfl, rfl, rfl, rfl, rfl, rfl⟩

theorem walkChain_sameCore (env : Nat → CbAction) (fuel : Nat) :
    ∀ (ss : List Strategy) (p : PipelineSt) (cur : Option Nat) (dw : Bool),
      sameCore (walkChain env fuel ss p cur dw).p p := by
  intro ss
  induction ss with
  | nil => intro p cur dw; exact sameCore_refl p
  | cons s rest ih =>
    intro p cur dw
    unfold walkChain
    split_ifs with h1 h2 h3
    · exact disposeFrame_sameCore p cur
    · exact ⟨rfl, rfl, rfl, rfl, rfl, rfl, rfl, rfl, rfl, rfl⟩
    · exact sameCore_refl p
    · dsimp only
      cases hr : execStrategyRet env fuel s cur p with
      | raised e =>
        exact sameCore_trans
          (sameCore_trans (disposeFrame_sameCore _ cur)
            ⟨rfl, rfl, rfl, rfl, rfl, rfl, rfl, rfl, rfl, rfl⟩)
          (execStrategySt_sameCore env fuel s cur p)
      | ret success out =>
        cases success with
        | false =>
          exact sameCore_trans (disposeFrame_sameCore _ out)
            (execStrategySt_sameCore env fuel s cur p)
        | true =>
          exact sameCore_trans (ih _ out true)
            (execStrategySt_sameCore env fuel s cur p)

theorem handleFramePacing_sameCore (d : ℤ) (p : PipelineSt) :
    sameCore (handleFramePacing d p).1 p := by
  unfold handleFramePacing
  dsimp only
  split_ifs <;> exact ⟨rfl, rfl, rfl, rfl, rfl, rfl, rfl, rfl, rfl, rfl⟩

/-- Pacing raises exactly when the configured `max_fps` is zero
(Python's `1.0 / max_fps`). -/
theorem handleFramePacing_snd (d : ℤ) (p : PipelineSt) :
    (handleFramePacing d p).2 =
      (if p.maxFps = 0 then some ExcClass.zeroDivisionError else none) := by
  unfold handleFramePacing
  dsimp only
  split_ifs <;> rfl

theorem stepFinalize_sameCore (env : Nat → CbAction) (fuel : Nat)
    (tA tB : ℤ) (w : WalkRes) :
    sameCore (stepFinalize env fuel tA tB w).1 w.p := by
  unfold stepFinalize
  dsimp only
  exact sameCore_trans (handleFramePacing_sameCore _ _)
    (sameCore_trans (disposeFrame_sameCore _ w.cur)
      ⟨rfl, rfl, rfl, rfl, rfl, rfl, rfl, rfl, rfl, rfl⟩)

/-- The `finally` block raises exactly when the configured `max_fps` is
zero. -/
theorem stepFinalize_snd (env : Nat → CbAction) (fuel : Nat) (tA tB : ℤ)
    (w : WalkRes) :
    (stepFinalize env fuel tA tB w).2 =
      (if w.p.maxFps = 0 then some ExcClass.zeroDivisionError else none) := by
  unfold stepFinalize
  dsimp only
  rw [handleFramePacing_snd]
  have hfps : (disposeFrame
      { w.p with router := (processDeferred env fuel w.p.router).1 }
      w.cur).maxFps = w.p.maxFps := by
    cases w.cur <;> rfl
  rw [hfps]

/-- A walk started on a non-TERMINATED pipeline never takes the mid-walk
`return True` path (nothing inside the walk writes the lifecycle state). -/
theorem walkChain_exit_finished (env : Nat → CbAction) (fuel : Nat) :
    ∀ (ss : List Strategy) (p : PipelineSt) (cur : Option Nat) (dw : Bool),
      p.pstate ≠ .TERMINATED →
      (walkChain env fuel ss p cur dw).exit = .finished := by
  intro ss
  induction ss with
  | nil => intro p cur dw _; rfl
  | cons s rest ih =>
    intro p cur dw hp
    unfold walkChain
    rw [if_neg hp]
    by_cases hint : p.router.frameInterrupted = true
    · rw [if_pos hint]
    · rw [if_neg hint]
      dsimp only
      cases hr : execStrategyRet env fuel s cur p with
      | raised e => rfl
      | ret success out =>
        cases success with
        | false => rfl
        | true => exact ih _ out true hp

theorem stepWalk_sameCore (env : Nat → CbAction) (fuel : Nat)
    (p3 : PipelineSt) : sameCore (stepWalk env fuel p3).p p3 :=
  walkChain_sameCore env fuel p3.strategies p3 none false

theorem stepWalk_exit_finished (env : Nat → CbAction) (fuel : Nat)
    (p3 : PipelineSt) (h : p3.pstate ≠ .TERMINATED) :
    (stepWalk env fuel p3).exit = .finished :=
  walkChain_exit_finished env fuel p3.strategies p3 none false h

/-- The body of `step` after a successful `_last_time` read, on a RUNNING
pipeline with a non-zero configured frame rate (so pacing's division does
not raise): the context's `frame_index` was pushed to `+1` (and survives,
except for the SINGLE-mode self-stop whose `cleanup` resets the context),
the lifecycle state is RUNNING afterwards unless the SINGLE-mode self-stop
terminated it, and no exception escapes. -/
theorem stepCore_spec (env : Nat → CbAction) (fuel : Nat) (tA tB lt : ℤ)
    (p1 : PipelineSt) (hrun : p1.pstate = .RUNNING)
    (hfps : p1.maxFps ≠ 0) :
    (stepCore env fuel tA tB lt p1).1.frameIndex =
      (if p1.mode = .SINGLE then 0 else p1.frameIndex + 1) ∧
    (stepCore env fuel tA tB lt p1).1.pstate =
      (if p1.mode = .SINGLE then .TERMINATED else .RUNNING) ∧
    ∃ b, (stepCore env fuel tA tB lt p1).2 = .ret b := by
  have hpre : (stepPre tA lt p1).pstate = .RUNNING := hrun
  have hexit : (stepWalk env fuel (stepPre tA lt p1)).exit = .finished :=
    stepWalk_exit_finished env fuel _ (by rw [hpre]; simp)
  have h4 := sameCore_trans
    (stepFinalize_sameCore env fuel tA tB (stepWalk env fuel (stepPre tA lt p1)))
    (stepWalk_sameCore env fuel (stepPre tA lt p1))
  obtain ⟨hmode, hpstate, _, _, hfidx, _⟩ := h4
  have hwfps : (stepWalk env fuel (stepPre tA lt p1)).p.maxFps = p1.maxFps :=
    (stepWalk_sameCore env fuel (stepPre tA lt p1)).2.2.2.2.2.2.2.1
  have hfin2 : (stepFinalize env fuel tA tB
      (stepWalk env fuel (stepPre tA lt p1))).2 = none := by
    rw [stepFinalize_snd, if_neg (by rw [hwfps]; exact hfps)]
  unfold stepCore
  dsimp only
  rw [hfin2]
  dsimp only
  rw [hexit]
  dsimp only
  refine ⟨?_, ?_, _, rfl⟩
  · by_cases hm : p1.mode = .SINGLE
    · rw [if_pos hm, if_pos (show (stepFinalize env fuel tA tB
          (stepWalk env fuel (stepPre tA lt p1))).1.mode = .SINGLE by rw [hmode]; exact hm)]
      unfold Pipeline.stop
      rw [if_pos (by rw [hpstate]; simp [hpre])]
      rfl
    · rw [if_neg hm, if_neg (show ¬ (stepFinalize env fuel tA tB
          (stepWalk env fuel (stepPre tA lt p1))).1.mode = .SINGLE by rw [hmode]; exact hm)]
      exact hfidx
  · by_cases hm : p1.mode = .SINGLE
    · rw [if_pos hm, if_pos (show (stepFinalize env fuel tA tB
          (stepWalk env fuel (stepPre tA lt p1))).1.mode = .SINGLE by rw [hmode]; exact hm)]
      unfold Pipeline.stop
      rw [if_pos (by rw [hpstate]; simp [hpre])]
      rfl
    · rw [if_neg hm, if_neg (show ¬ (stepFinalize env fuel tA tB
          (stepWalk env fuel (stepPre tA lt p1))).1.mode = .SINGLE by rw [hmode]; exact hm)]
      rw [hpstate]
      exact hpre

/-- The body of `step` at a zero configured frame rate: the chain runs,
but the `finally` block's `1.0 / max_fps` raises `ZeroDivisionError`,
which propagates out of `step` and skips the SINGLE-mode self-stop — the
incremented `frame_index` survives and the state stays RUNNING. -/
theorem stepCore_zero_fps (env : Nat → CbAction) (fuel : Nat) (tA tB lt : ℤ)
    (p1 : PipelineSt) (hrun : p1.pstate = .RUNNING)
    (hz : p1.maxFps = 0) :
    (stepCore env fuel tA tB lt p1).2 = .raised .zeroDivisionError ∧
    (stepCore env fuel tA tB lt p1).1.frameIndex = p1.frameIndex + 1 ∧
    (stepCore env fuel tA tB lt p1).1.pstate = .RUNNING := by
  have h4 := sameCore_trans
    (stepFinalize_sameCore env fuel tA tB (stepWalk env fuel (stepPre tA lt p1)))
    (stepWalk_sameCore env fuel (stepPre tA lt p1))
  obtain ⟨-, hpstate, -, -, hfidx, -⟩ := h4
  have hwfps : (stepWalk env fuel (stepPre tA lt p1)).p.maxFps = p1.maxFps :=
    (stepWalk_sameCore env fuel (stepPre tA lt p1)).2.2.2.2.2.2.2.1
  have hfin2 : (stepFinalize env fuel tA tB
      (stepWalk env fuel (stepPre tA lt p1))).2 = some .zeroDivisionError := by
    rw [stepFinalize_snd, if_pos (by rw [hwfps]; exact hz)]
  unfold stepCore
  dsimp only
  rw [hfin2]
  dsimp only
  refine ⟨rfl, hfidx, ?_⟩
  rw [hpstate]
  exact hrun

/-! ## Concrete fixtures used by counterexamples and witnesses -/

/-- An environment in which every subscriber callback does nothing. -/
def envNoop : Nat → CbAction := fun _ => .noop

/-- A freshly built standard router with no per-topic policies. -/
def baseRouter : RouterState := mkRouter (fun _ => none)

/-- A strategy whose `execute` publishes on topic 0 at CRITICAL priority. -/
def critStrat : Strategy :=
  ⟨0, 5, fun _ => [(0, 0, .CRITICAL)], fun _ => .ret true none⟩

/-- A RUNNING LOOP pipeline (with `_last_time` already set, so that the
chain walk is reached) whose only strategy is `critStrat`. -/
def pipeCrit : PipelineSt :=
  { mode := .LOOP, pstate := .RUNNING, triggerSet := false, lastTime := some 0,
    frameIndex := 0, deltaTime := 0, strategies := [critStrat],
    router := baseRouter, frameReleased := fun _ => false, execTrace := [],
    maxFps := 60, enableFpsControl := false, enableProfiling := false,
    pLogs := [] }

/-- A RUNNING LOOP pipeline exactly as the constructor leaves it
(`_last_time` absent) after `start()`. -/
def pipeNoLast : PipelineSt :=
  { pipeCrit with strategies := [], lastTime := none }

/-- Same pipeline with `_last_time` present, for witnesses that need a
step that executes. -/
def pipeRun : PipelineSt :=
  { pipeCrit with strategies := [] }

/-- A TERMINATED pipeline. -/
def pipeTerm : PipelineSt :=
  { pipeRun with pstate := .TERMINATED }

/-- `pipeRun` with a zero configured frame rate, for the
`ZeroDivisionError` path of the pacing division. -/
def pipeZero : PipelineSt :=
  { pipeRun with maxFps := 0 }

/-- Router with a single subscriber (callback 1) on topic 0. -/
def routerLive : RouterState :=
  { baseRouter with subscribers := fun t => if t = 0 then [1] else [] }

/-- Callback 1 subscribes callback 2 to topic 0 while being dispatched. -/
def envSubDuring : Nat → CbAction :=
  fun c => if c = 1 then .subscribeTo 0 2 else .noop

/-- Router with two subscribers (3 and 4) on topic 0. -/
def routerTwo : RouterState :=
  { baseRouter with subscribers := fun t => if t = 0 then [3, 4] else [] }

/-- Router whose topic 0 has the DROP policy. -/
def routerDrop : RouterState :=
  mkRouter (fun t => if t = 0 then some EventPolicy.drop else none)

/-- A strategy that fails (`success=False`, returning frame 3) without
publishing. -/
def failStrat : Strategy := ⟨1, 6, fun _ => [], fun _ => .ret false (some 3)⟩

/-- A strategy that would succeed, sitting after `failStrat` in the chain. -/
def nextStrat : Strategy := ⟨2, 7, fun _ => [], fun _ => .ret true none⟩

/-- RUNNING LOOP pipeline whose chain is `[failStrat, nextStrat]`. -/
def pipeFail : PipelineSt :=
  { pipeCrit with strategies := [failStrat, nextStrat] }

/-- A heap with one installed chain object `[7]` at address 0. -/
def cowFix : CowChains :=
  { store := fun a => if a = 0 then [7] else [], nextA := 1, cur := 0 }

/-- A config with no strategies, used to instantiate constructor facts. -/
def cfgW : PipelineConfig :=
  { mode := .LOOP, strategies := [], maxFps := 60, enableFpsControl := false,
    enableProfiling := false, eventPolicies := fun _ => none }

/-! ## Helper lemmas: `_last_time` tracking (claim C2) -/

theorem foldl_addStrategy_lastTime :
    ∀ (ss : List Strategy) (p : PipelineSt),
      (ss.foldl (fun q s => Pipeline.addStrategy s q) p).lastTime = p.lastTime := by
  intro ss
  induction ss with
  | nil => intro p; rfl
  | cons s rest ih =>
    intro p
    rw [List.foldl_cons, ih]
    rfl

theorem mkPipeline_lastTime (cfg : PipelineConfig) :
    (mkPipeline cfg).lastTime = none := by
  unfold mkPipeline
  rw [foldl_addStrategy_lastTime]

theorem step_fst_lastTime_none (env : Nat → CbAction) (fuel : Nat) (tA tB : ℤ)
    (p : PipelineSt) (hlast : p.lastTime = none) :
    (Pipeline.step env fuel tA tB p).1.lastTime = none := by
  unfold Pipeline.step
  dsimp only
  split_ifs with h1 h2 h3
  · exact hlast
  · exact hlast
  · dsimp only
    rw [hlast]
  · rw [hlast]
    exact hlast

theorem step_no_work_of_lastTime_none (env : Nat → CbAction) (fuel : Nat)
    (tA tB : ℤ) (p : PipelineSt) (hlast : p.lastTime = none) :
    (Pipeline.step env fuel tA tB p).2 ≠ .ret true := by
  unfold Pipeline.step
  dsimp only
  split_ifs with h1 h2 h3
  · simp
  · simp
  · dsimp only
    rw [hlast]
    simp
  · rw [hlast]
    simp

theorem applyOp_lastTime_none (op : Op) (p : PipelineSt)
    (h : p.lastTime = none) : (applyOp op p).lastTime = none := by
  cases op with
  | opStart =>
    unfold applyOp Pipeline.start
    dsimp only
    split_ifs <;> exact h
  | opPause =>
    unfold applyOp Pipeline.pause
    dsimp only
    split_ifs <;> exact h
  | opResume =>
    unfold applyOp Pipeline.resume
    dsimp only
    split_ifs <;> exact h
  | opStop =>
    unfold applyOp Pipeline.stop Pipeline.cleanup
    dsimp only
    split_ifs <;> exact h
  | opTrigger =>
    unfold applyOp Pipeline.trigger
    dsimp only
    split_ifs <;> exact h
  | opStep env fuel tA tB => exact step_fst_lastTime_none env fuel tA tB p h
  | opAdd s => exact h
  | opInsert i s => exact h
  | opRemove s =>
    unfold applyOp Pipeline.removeStrategy
    dsimp only
    split_ifs <;> exact h
  | opRemoveByName n =>
    unfold applyOp Pipeline.removeStrategyByName
    dsimp only
    cases hf : p.strategies.find? (fun s => s.sname = n) with
    | none => exact h
    | some s =>
      unfold Pipeline.removeStrategy
      dsimp only
      split_ifs <;> exact h
  | opRemoveByIndex i =>
    unfold applyOp Pipeline.removeStrategyByIndex
    dsimp only
    split_ifs with hi
    · unfold Pipeline.removeStrategy
      split_ifs <;> exact h
    · exact h
  | opRequestInterrupt => exact h
  | opCleanup => exact h

theorem applyOps_lastTime_none : ∀ (ops : List Op) (p : PipelineSt),
    p.lastTime = none → (applyOps ops p).lastTime = none := by
  intro ops
  induction ops with
  | nil => intro p h; exact h
  | cons op rest ih =>
    intro p h
    have hsplit : applyOps (op :: rest) p = applyOps rest (applyOp op p) := rfl
    rw [hsplit]
    exact ih _ (applyOp_lastTime_none op p h)

/-- A gate-passing `step` on a pipeline whose `_last_time` attribute is
absent raises `AttributeError` before touching anything except the
CONDITIONAL trigger flag (which the gate consumed just before the read). -/
theorem step_attrError (env : Nat → CbAction) (fuel : Nat) (tA tB : ℤ)
    (p : PipelineSt) (hlast : p.lastTime = none)
    (hrun : p.pstate = .RUNNING)
    (hgate : p.mode = .CONDITIONAL → p.triggerSet = true) :
    Pipeline.step env fuel tA tB p =
      ((if p.mode = .CONDITIONAL then { p with triggerSet := false } else p),
        .raised .attributeError) := by
  unfold Pipeline.step
  rw [if_neg (by simp [hrun])]
  rw [if_neg (by rintro ⟨hm, ht⟩; rw [hgate hm] at ht; cases ht)]
  dsimp only
  by_cases hm : p.mode = .CONDITIONAL
  · rw [if_pos hm]
    dsimp only
    rw [hlast]
  · rw [if_neg hm]
    rw [hlast]

/-- A gate-passing `step` with `_last_time` present and value `lt` runs the
step body on the post-gate state. -/
theorem step_eq_stepCore (env : Nat → CbAction) (fuel : Nat) (tA tB lt : ℤ)
    (p : PipelineSt) (hrun : p.pstate = .RUNNING)
    (hgate : p.mode = .CONDITIONAL → p.triggerSet = true)
    (hlt : p.lastTime = some lt) :
    Pipeline.step env fuel tA tB p =
      stepCore env fuel tA tB lt
        (if p.mode = .CONDITIONAL then { p with triggerSet := false } else p) := by
  unfold Pipeline.step
  rw [if_neg (by simp [hrun])]
  rw [if_neg (by rintro ⟨hm, ht⟩; rw [hgate hm] at ht; cases ht)]
  dsimp only
  by_cases hm : p.mode = .CONDITIONAL
  · rw [if_pos hm]
    dsimp only
    rw [hlt]
  · rw [if_neg hm]
    rw [hlt]

/-! ## The claims -/

/-- Claim C1 (code bug): the spec says a CRITICAL-priority publish from
inside the strategy chain escalates out of the router and out of
`pipeline.step()` uncaught, is caught only by the Executor's sweep, which
reports a CRITICAL `SystemAlertPayload` to the hub and force-stops that
pipeline.  The code disagrees twice: `EventRouter.publish` raises a bare
`Exception` — not the `PipelineCriticalError` the executor's circuit-break
branch catches — and `Pipeline.step`'s per-strategy `except Exception`
swallows the escalation as an ordinary stage error.  Evaluated on a
one-strategy pipeline that publishes CRITICAL on a NORMAL topic: the
publish raises a plain `Exception`; `step` catches it (logging it as
`Unexpected Error`), returns `did_work=False`, and the pipeline stays
RUNNING; the executor sweep reports nothing to the hub and keeps the
pipeline attached. -/
theorem C1_critical_escalation_swallowed :
    (publish envNoop 5 baseRouter 0 0 5 .CRITICAL).2 = some .plainException ∧
    (Pipeline.step envNoop 5 1 2 pipeCrit).2 = .ret false ∧
    (Pipeline.step envNoop 5 1 2 pipeCrit).1.pstate = .RUNNING ∧
    (Pipeline.step envNoop 5 1 2 pipeCrit).1.pLogs =
      [.unexpectedError 5 .plainException] ∧
    (sweepAll envNoop 5 1 2 [pipeCrit] ⟨[]⟩).2.1 = ⟨[]⟩ ∧
    (sweepAll envNoop 5 1 2 [pipeCrit] ⟨[]⟩).1.map PipelineSt.pstate =
      [.RUNNING] := by
  decide

/-- Claim C2: `_last_time` is never initialized — not by the constructor
and not by any public operation — so the first gate-passing `step()` (and
every later one, since the assignment sits after the failing read) raises
`AttributeError` before `frame_index` is incremented, before any strategy
executes and before `process_deferred` runs, and no pipeline built from a
config ever completes a working step. -/
theorem C2_last_time_never_initialized :
    (∀ cfg : PipelineConfig, (mkPipeline cfg).lastTime = none) ∧
    (∀ (op : Op) (p : PipelineSt), p.lastTime = none →
        (applyOp op p).lastTime = none) ∧
    (∀ (env : Nat → CbAction) (fuel : Nat) (tA tB : ℤ) (p : PipelineSt),
        p.lastTime = none → p.pstate = .RUNNING →
        (p.mode = .CONDITIONAL → p.triggerSet = true) →
        ((Pipeline.step env fuel tA tB p).2 = .raised .attributeError ∧
         (Pipeline.step env fuel tA tB p).1.frameIndex = p.frameIndex ∧
         (Pipeline.step env fuel tA tB p).1.execTrace = p.execTrace ∧
         (Pipeline.step env fuel tA tB p).1.router = p.router ∧
         (Pipeline.step env fuel tA tB p).1.lastTime = none)) ∧
    (∀ (cfg : PipelineConfig) (ops : List Op) (env : Nat → CbAction)
        (fuel : Nat) (tA tB : ℤ),
        (Pipeline.step env fuel tA tB (applyOps ops (mkPipeline cfg))).2 ≠
          .ret true) := by
  refine ⟨mkPipeline_lastTime, applyOp_lastTime_none, ?_, ?_⟩
  · intro env fuel tA tB p hlast hrun hgate
    rw [step_attrError env fuel tA tB p hlast hrun hgate]
    by_cases hm : p.mode = .CONDITIONAL
    · rw [if_pos hm]
      exact ⟨rfl, rfl, rfl, rfl, hlast⟩
    · rw [if_neg hm]
      exact ⟨rfl, rfl, rfl, rfl, hlast⟩
  · intro cfg ops env fuel tA tB
    exact step_no_work_of_lastTime_none env fuel tA tB _
      (applyOps_lastTime_none ops _ (mkPipeline_lastTime cfg))

/-- Witness for C2 at concrete inputs. -/
theorem C2_witness :
    (mkPipeline cfgW).lastTime = none ∧
    (Pipeline.step envNoop 5 1 2 pipeNoLast).2 = .raised .attributeError ∧
    (Pipeline.step envNoop 5 1 2 pipeNoLast).1.frameIndex =
      pipeNoLast.frameIndex ∧
    (Pipeline.step envNoop 5 1 2
        (applyOps [.opStart] (mkPipeline cfgW))).2 ≠ .ret true := by
  have h := C2_last_time_never_initialized
  have h3 := h.2.2.1 envNoop 5 1 2 pipeNoLast rfl rfl
    (fun hm => absurd hm (by decide))
  exact ⟨h.1 cfgW, h3.1, h3.2.1, h.2.2.2 cfgW [.opStart] envNoop 5 1 2⟩

/-- Claim C3 counterexample: a RUNNING LOOP pipeline straight out of the
constructor (no `_last_time`) — the gate passes, yet `step` raises
`AttributeError` and `frame_index` does not advance by 1. -/
theorem C3_counterexample :
    pipeNoLast.pstate = .RUNNING ∧ pipeNoLast.mode = .LOOP ∧
    (Pipeline.step envNoop 5 1 2 pipeNoLast).1.frameIndex ≠
      pipeNoLast.frameIndex + 1 ∧
    (Pipeline.step envNoop 5 1 2 pipeNoLast).2 = .raised .attributeError := by
  decide

/-- Claim C3 (amended): provided `_last_time` is initialized and the
configured `max_fps` is positive, a RUNNING pipeline's `frame_index`
advances by exactly 1 on a LOOP step and on a CONDITIONAL step whose
trigger gate passes; in SINGLE mode the increment is immediately undone
by the self-stop's `cleanup` (context reset to 0).  At `max_fps = 0` the
`finally` block's `1.0 / max_fps` raises `ZeroDivisionError` out of the
step instead — the increment survives but the SINGLE self-stop is skipped
and the state stays RUNNING.  Steps returning early — state not RUNNING,
or CONDITIONAL with the trigger unset — return `(self, False)` with the
whole pipeline state (hence the context) unchanged.  Without
`_last_time`, a gate-passing step instead raises `AttributeError` and
`frame_index` stays put (see the counterexample). -/
theorem C3_frame_index_amended (env : Nat → CbAction) (fuel : Nat)
    (tA tB : ℤ) (p : PipelineSt) :
    (p.pstate = .RUNNING → p.lastTime.isSome = true → 0 < p.maxFps →
      ((p.mode = .LOOP →
          (Pipeline.step env fuel tA tB p).1.frameIndex = p.frameIndex + 1) ∧
       (p.mode = .CONDITIONAL → p.triggerSet = true →
          (Pipeline.step env fuel tA tB p).1.frameIndex = p.frameIndex + 1) ∧
       (p.mode = .SINGLE →
          (Pipeline.step env fuel tA tB p).1.frameIndex = 0))) ∧
    (p.pstate = .RUNNING → p.lastTime.isSome = true → p.maxFps = 0 →
      (p.mode = .CONDITIONAL → p.triggerSet = true) →
      ((Pipeline.step env fuel tA tB p).2 = .raised .zeroDivisionError ∧
       (Pipeline.step env fuel tA tB p).1.frameIndex = p.frameIndex + 1 ∧
       (Pipeline.step env fuel tA tB p).1.pstate = .RUNNING)) ∧
    (p.pstate ≠ .RUNNING → Pipeline.step env fuel tA tB p = (p, .ret false)) ∧
    (p.pstate = .RUNNING → p.mode = .CONDITIONAL → p.triggerSet = false →
      Pipeline.step env fuel tA tB p = (p, .ret false)) := by
  refine ⟨?_, ?_, ?_, ?_⟩
  · intro hrun hsome hpos
    obtain ⟨lt, hlt⟩ := Option.isSome_iff_exists.mp hsome
    refine ⟨?_, ?_, ?_⟩
    · intro hm
      rw [step_eq_stepCore env fuel tA tB lt p hrun
        (fun hc => absurd hc (by rw [hm]; simp)) hlt]
      rw [if_neg (by rw [hm]; simp)]
      rw [(stepCore_spec env fuel tA tB lt p hrun hpos.ne').1]
      rw [if_neg (by rw [hm]; simp)]
    · intro hm ht
      rw [step_eq_stepCore env fuel tA tB lt p hrun (fun _ => ht) hlt]
      rw [if_pos hm]
      rw [(stepCore_spec env fuel tA tB lt { p with triggerSet := false }
        hrun hpos.ne').1]
      rw [if_neg (by dsimp only; rw [hm]; simp)]
    · intro hm
      rw [step_eq_stepCore env fuel tA tB lt p hrun
        (fun hc => absurd hc (by rw [hm]; simp)) hlt]
      rw [if_neg (by rw [hm]; simp)]
      rw [(stepCore_spec env fuel tA tB lt p hrun hpos.ne').1]
      rw [if_pos hm]
  · intro hrun hsome hz hgate
    obtain ⟨lt, hlt⟩ := Option.isSome_iff_exists.mp hsome
    rw [step_eq_stepCore env fuel tA tB lt p hrun hgate hlt]
    by_cases hm : p.mode = .CONDITIONAL
    · rw [if_pos hm]
      exact stepCore_zero_fps env fuel tA tB lt { p with triggerSet := false }
        hrun hz
    · rw [if_neg hm]
      exact stepCore_zero_fps env fuel tA tB lt p hrun hz
  · intro hne
    unfold Pipeline.step
    rw [if_pos hne]
  · intro hrun hm ht
    unfold Pipeline.step
    rw [if_neg (by simp [hrun]), if_pos ⟨hm, ht⟩]

/-- Witness for C3 (amended) at concrete inputs, including a zero-`max_fps`
pipeline whose step raises `ZeroDivisionError` with the increment kept. -/
theorem C3_witness :
    (Pipeline.step envNoop 5 1 2 pipeRun).1.frameIndex =
      pipeRun.frameIndex + 1 ∧
    (Pipeline.step envNoop 5 1 2 pipeZero).2 = .raised .zeroDivisionError ∧
    (Pipeline.step envNoop 5 1 2 pipeZero).1.frameIndex =
      pipeZero.frameIndex + 1 ∧
    Pipeline.step envNoop 5 1 2 pipeTerm = (pipeTerm, .ret false) := by
  refine ⟨((C3_frame_index_amended envNoop 5 1 2 pipeRun).1 rfl rfl
    (by decide)).1 rfl, ?_, ?_, ?_⟩
  · exact ((C3_frame_index_amended envNoop 5 1 2 pipeZero).2.1 rfl rfl rfl
      (fun hm => absurd hm (by decide))).1
  · exact ((C3_frame_index_amended envNoop 5 1 2 pipeZero).2.1 rfl rfl rfl
      (fun hm => absurd hm (by decide))).2.1
  · exact (C3_frame_index_amended envNoop 5 1 2 pipeTerm).2.2.1 (by decide)

/-- Claim C4 counterexample: topic 0 has exactly one subscriber (callback
1) when the IMMEDIATE dispatch begins, yet callback 2 — subscribed by
callback 1 during that very dispatch — is also invoked, because
`_dispatch_now` iterates the live list (the snapshot copy is commented out
in the source).  A callback mutating subscriptions therefore CAN change the
set of callbacks invoked by the in-progress dispatch. -/
theorem C4_counterexample :
    routerLive.subscribers 0 = [1] ∧
    (publish envSubDuring 5 routerLive 0 9 7 .IMMEDIATE).1.calls =
      [(1, 9), (2, 9)] := by
  decide

/-- Claim C4 (amended): an IMMEDIATE/INTERRUPT publish on a non-DROP topic
dispatches synchronously by iterating the subscriber list LIVE, not a
snapshot: when no invoked callback edits that topic's subscriber list, the
invoked callbacks are exactly the topic's subscribers at the moment
dispatch begins, in order — but a callback that subscribes or unsubscribes
during the dispatch can change the set invoked (see the counterexample). -/
theorem C4_live_dispatch_amended (env : Nat → CbAction) (fuel : Nat)
    (st : RouterState) (topic data sender : Nat) (priority : EventPriority)
    (hprio : priority = .IMMEDIATE ∨ priority = .INTERRUPT)
    (hpol : (resolvePolicy st topic).is_dropped = false)
    (hmut : ∀ cb, mutatesTopicB (env cb) topic = false)
    (hfuel : (st.subscribers topic).length ≤ fuel) :
    (publish env fuel st topic data sender priority).1.calls =
      st.calls ++ (st.subscribers topic).map (fun cb => (cb, data)) := by
  rcases hg : tracePublishGate st topic sender priority with _ | st1
  · rw [tracePublishGate_none_iff] at hg
    rw [hg] at hpol
    cases hpol
  · obtain ⟨hsub, hcalls, -⟩ := tracePublishGate_proj hg
    have hdn : (dispatchNow env fuel st1 topic data).calls =
        st.calls ++ (st.subscribers topic).map (fun cb => (cb, data)) := by
      rw [dispatchNow_calls env fuel st1 topic data hmut
        (by rw [hsub]; exact hfuel)]
      rw [hsub, hcalls]
    unfold publish
    rw [hg]
    dsimp only
    rcases hprio with h | h <;> subst h
    · rw [if_neg (by simp), if_pos (by decide)]
      rw [if_neg (by simp)]
      exact hdn
    · rw [if_neg (by simp), if_pos (by decide)]
      rw [if_pos rfl]
      by_cases hb : (dispatchNow env fuel st1 topic data).pipelineBound = true
      · rw [if_pos hb]
        exact hdn
      · rw [if_neg hb]
        exact hdn

/-- Witness for C4 (amended) at concrete inputs: two subscribers, both
no-ops, invoked exactly in order. -/
theorem C4_witness :
    (publish envNoop 5 routerTwo 0 9 7 .IMMEDIATE).1.calls =
      routerTwo.calls ++ (routerTwo.subscribers 0).map (fun cb => (cb, 9)) :=
  C4_live_dispatch_amended envNoop 5 routerTwo 0 9 7 .IMMEDIATE (Or.inl rfl)
    (by decide) (fun _ => rfl) (by decide)

/-- Claim C5: a CRITICAL-priority publish never invokes any subscriber
callback of its topic, for every router state (hence every subscriber
configuration and policy): the DROP gate returns before the wrapped
`publish` runs, and every other path raises before the dispatch branch. -/
theorem C5_critical_never_invokes (env : Nat → CbAction) (fuel : Nat)
    (st : RouterState) (topic data sender : Nat) :
    (publish env fuel st topic data sender .CRITICAL).1.calls = st.calls := by
  rcases hg : tracePublishGate st topic sender .CRITICAL with _ | st1
  · unfold publish
    rw [hg]
  · unfold publish
    rw [hg]
    dsimp only
    rw [if_pos rfl]
    exact (tracePublishGate_proj hg).2.1

/-- Claim C6: one `process_deferred()` call pops and dispatches exactly the
entries that were in the FIFO queue when the call began, in queue order
(second component of the model's return value is the popped list); and the
queue left behind consists exactly of the entries appended during the
drain (the enqueue-trace suffix past the call-time trace), so events
enqueued by handlers invoked during the drain are retained for the next
call — one bounded pass. -/
theorem C6_process_deferred_single_pass (env : Nat → CbAction) (fuel : Nat)
    (st : RouterState) :
    (processDeferred env fuel st).2 = st.deferredQueue ∧
    (processDeferred env fuel st).1.deferredQueue =
      (processDeferred env fuel st).1.enqTrace.drop st.enqTrace.length := by
  unfold processDeferred
  by_cases he : st.deferredQueue.isEmpty = true
  · rw [if_pos he]
    have hq : st.deferredQueue = [] := by simpa using he
    exact ⟨hq.symm, by rw [hq, List.drop_length]⟩
  · rw [if_neg he]
    dsimp only
    split_ifs with hlog
    · obtain ⟨h2, new, hdq, henq⟩ := drainLoop_spec env fuel
        st.deferredQueue.length { st with logs := st.logs ++ [.flushInfo] } []
        (le_refl _)
      refine ⟨?_, ?_⟩
      · rw [h2]
        simp
      · rw [hdq, henq]
        simp [List.drop_left]
    · obtain ⟨h2, new, hdq, henq⟩ := drainLoop_spec env fuel
        st.deferredQueue.length st [] (le_refl _)
      refine ⟨?_, ?_⟩
      · rw [h2]
        simp
      · rw [hdq, henq]
        simp [List.drop_left]

/-- Claim C7: TERMINATED is absorbing — after it, `start`, `pause`,
`resume`, `stop` and `trigger` leave the state TERMINATED, and `step`
returns `(self, False)` without touching anything. -/
theorem C7_terminated_absorbing (p : PipelineSt)
    (h : p.pstate = .TERMINATED) :
    (Pipeline.start p).pstate = .TERMINATED ∧
    (Pipeline.pause p).pstate = .TERMINATED ∧
    (Pipeline.resume p).pstate = .TERMINATED ∧
    (Pipeline.stop p).pstate = .TERMINATED ∧
    (Pipeline.trigger p).pstate = .TERMINATED ∧
    (∀ (env : Nat → CbAction) (fuel : Nat) (tA tB : ℤ),
        Pipeline.step env fuel tA tB p = (p, .ret false)) := by
  refine ⟨?_, ?_, ?_, ?_, ?_, ?_⟩
  · unfold Pipeline.start
    rw [if_pos h]
    exact h
  · unfold Pipeline.pause
    rw [if_neg (by simp [h])]
    exact h
  · unfold Pipeline.resume
    rw [if_neg (by simp [h])]
    exact h
  · unfold Pipeline.stop
    rw [if_neg (by simp [h])]
    exact h
  · unfold Pipeline.trigger
    split_ifs <;> exact h
  · intro env fuel tA tB
    unfold Pipeline.step
    rw [if_pos (by simp [h])]

/-- Witness for C7 at a concrete TERMINATED pipeline. -/
theorem C7_witness :
    (Pipeline.stop pipeTerm).pstate = .TERMINATED ∧
    Pipeline.step envNoop 5 1 2 pipeTerm = (pipeTerm, .ret false) :=
  ⟨(C7_terminated_absorbing pipeTerm rfl).2.2.2.1,
   (C7_terminated_absorbing pipeTerm rfl).2.2.2.2.2 envNoop 5 1 2⟩

/-- Claim C8: a strategy failure is contained within one step.  Part 1
(the chain walk, at the failing strategy): if the walk reaches strategy `s`
(state not TERMINATED, no pending interrupt) and `s`'s execute returns
`success=False` or raises, the walk breaks with only `s` added to the
execution trace (no later strategy executes), the returned/in-flight frame
is disposed, `did_work` is untouched by the failure, and the lifecycle
state is unchanged.  Part 2 (the whole step): a gate-passing step never
lets an error escape (`AttributeError` aside — `_last_time` assumed
present) and ends RUNNING, except for the mode-driven SINGLE self-stop,
which is independent of any failure. -/
theorem C8_stage_failure_contained (env : Nat → CbAction) (fuel : Nat) :
    (∀ (s : Strategy) (post : List Strategy) (p : PipelineSt)
        (cur : Option Nat) (dw : Bool) (out : Option Nat) (e : ExcClass),
        p.pstate ≠ .TERMINATED → p.router.frameInterrupted = false →
        (execStrategyRet env fuel s cur p = .ret false out ∨
         execStrategyRet env fuel s cur p = .raised e) →
        ((walkChain env fuel (s :: post) p cur dw).exit = .finished ∧
         (walkChain env fuel (s :: post) p cur dw).p.execTrace =
           p.execTrace ++ [s.sname] ∧
         (walkChain env fuel (s :: post) p cur dw).didWork = dw ∧
         (walkChain env fuel (s :: post) p cur dw).p.pstate = p.pstate ∧
         (execStrategyRet env fuel s cur p = .ret false out →
           ∀ f, out = some f →
             (walkChain env fuel (s :: post) p cur dw).p.frameReleased f = true) ∧
         (execStrategyRet env fuel s cur p = .raised e →
           ∀ f, cur = some f →
             (walkChain env fuel (s :: post) p cur dw).p.frameReleased f = true))) ∧
    (∀ (tA tB : ℤ) (p : PipelineSt), p.pstate = .RUNNING →
        (p.mode = .CONDITIONAL → p.triggerSet = true) →
        p.lastTime.isSome = true → 0 < p.maxFps →
        ((∃ b, (Pipeline.step env fuel tA tB p).2 = .ret b) ∧
         (Pipeline.step env fuel tA tB p).1.pstate =
           (if p.mode = .SINGLE then .TERMINATED else .RUNNING))) := by
  constructor
  · intro s post p cur dw out e hterm hint hfail
    unfold walkChain
    rw [if_neg hterm, if_neg (by simp [hint])]
    dsimp only
    rcases hfail with hf | hf <;> rw [hf] <;> dsimp only
    · refine ⟨rfl, ?_, rfl, ?_, ?_, ?_⟩
      · cases out <;> rfl
      · cases out <;> rfl
      · intro _ f hfo
        subst hfo
        simp [disposeFrame, updFn]
      · intro habs
        simp at habs
    · refine ⟨rfl, ?_, rfl, ?_, ?_, ?_⟩
      · cases cur <;> rfl
      · cases cur <;> rfl
      · intro habs
        simp at habs
      · intro _ f hfo
        subst hfo
        simp [disposeFrame, updFn]
  · intro tA tB p hrun hgate hsome hfps
    obtain ⟨lt, hlt⟩ := Option.isSome_iff_exists.mp hsome
    rw [step_eq_stepCore env fuel tA tB lt p hrun hgate hlt]
    by_cases hm : p.mode = .CONDITIONAL
    · rw [if_pos hm]
      have hs := stepCore_spec env fuel tA tB lt { p with triggerSet := false }
        hrun hfps.ne'
      exact ⟨hs.2.2, hs.2.1⟩
    · rw [if_neg hm]
      have hs := stepCore_spec env fuel tA tB lt p hrun hfps.ne'
      exact ⟨hs.2.2, hs.2.1⟩

/-- Witness for C8 at a concrete chain `[failStrat, nextStrat]`: the
failing first strategy truncates the walk (only its name on the trace),
its returned frame 3 is disposed, and the surrounding step returns without
an escaping error. -/
theorem C8_witness :
    (walkChain envNoop 5 [failStrat, nextStrat] pipeFail none false).p.execTrace =
      pipeFail.execTrace ++ [failStrat.sname] ∧
    (walkChain envNoop 5 [failStrat, nextStrat] pipeFail none false).p.frameReleased 3 =
      true ∧
    (∃ b, (Pipeline.step envNoop 5 1 2 pipeFail).2 = .ret b) := by
  have h := C8_stage_failure_contained envNoop 5
  have h1 := h.1 failStrat [nextStrat] pipeFail none false (some 3)
    .plainException (by decide) rfl (Or.inl rfl)
  refine ⟨h1.2.1, h1.2.2.2.2.1 rfl 3 rfl, ?_⟩
  exact (h.2 1 2 pipeFail rfl (fun hm => absurd hm (by decide)) rfl
    (by decide)).1

/-- Helper for C9: `remove_strategy` never rewrites a previously allocated
chain cell. -/
theorem cowRemove_store_frozen (s : Nat) (c : CowChains) (a : Nat)
    (ha : a < c.nextA) : (cowRemove s c).store a = c.store a := by
  unfold cowRemove
  split_ifs with hmem
  · exact updFn_other _ _ _ _ (by omega)
  · rfl

/-- Claim C9 counterexample: `cleanup()` — run by `stop()`, which another
thread may call while a step is in flight — clears the installed chain
list IN PLACE: the reference (`cur`) is unchanged but the cell it points
to now holds different contents, so an in-flight step iterating that
snapshot no longer sees the full pre-edit chain.  The claim's "also holds
for every other operation that modifies the chain" clause is false. -/
theorem C9_counterexample :
    (cowCleanup cowFix).cur = cowFix.cur ∧
    (cowCleanup cowFix).store cowFix.cur ≠ cowFix.store cowFix.cur := by
  decide

/-- Claim C9 (amended): the structural edits proper — `add_strategy`,
`insert_strategy`, `remove_strategy` and its by-name/by-index variants —
are genuinely copy-on-write: they never rewrite any previously allocated
chain cell (so a step that loaded the chain reference at its start keeps
iterating the full pre-edit chain), and the newly installed cell holds the
full post-edit chain.  `cleanup()` (from `stop()`) is the exception: it
clears the installed cell in place (see the counterexample). -/
theorem C9_cow_edits_amended (c : CowChains) (a s i n : Nat)
    (nameOf : Nat → Nat) (ha : a < c.nextA) :
    ((cowAdd s c).store a = c.store a ∧
      (cowAdd s c).store (cowAdd s c).cur = c.store c.cur ++ [s]) ∧
    ((cowInsert i s c).store a = c.store a ∧
      (cowInsert i s c).store (cowInsert i s c).cur =
        pyInsert (c.store c.cur) i s) ∧
    (cowRemove s c).store a = c.store a ∧
    (cowRemoveByName nameOf n c).store a = c.store a ∧
    (cowRemoveByIndex i c).store a = c.store a := by
  refine ⟨⟨?_, ?_⟩, ⟨?_, ?_⟩, ?_, ?_, ?_⟩
  · exact updFn_other _ _ _ _ (by omega)
  · exact updFn_self _ _ _
  · exact updFn_other _ _ _ _ (by omega)
  · exact updFn_self _ _ _
  · exact cowRemove_store_frozen s c a ha
  · unfold cowRemoveByName
    cases hf : (c.store c.cur).find? (fun x => nameOf x = n) with
    | none => rfl
    | some x => exact cowRemove_store_frozen x c a ha
  · unfold cowRemoveByIndex
    split_ifs with hi
    · exact cowRemove_store_frozen _ c a ha
    · rfl

/-- Witness for C9 (amended) at the concrete one-cell heap. -/
theorem C9_witness :
    (cowAdd 9 cowFix).store 0 = cowFix.store 0 ∧
    (cowAdd 9 cowFix).store (cowAdd 9 cowFix).cur =
      cowFix.store cowFix.cur ++ [9] ∧
    (cowRemoveByIndex 0 cowFix).store 0 = cowFix.store 0 := by
  have h := C9_cow_edits_amended cowFix 0 9 0 0 (fun x => x) (by decide)
  exact ⟨h.1.1, h.1.2, h.2.2.2.2⟩

/-- Claim C10: on a topic whose resolved policy is DROP, `publish` is a
complete no-op at every priority — the decorator returns before the
wrapped function runs, so the state (logs, queue and its trace, calls,
interrupt flag) is returned unchanged and no exception is raised; in
particular a CRITICAL publish on a DROP topic produces no escalation. -/
theorem C10_drop_topic_noop (env : Nat → CbAction) (fuel : Nat)
    (st : RouterState) (topic data sender : Nat) (priority : EventPriority)
    (h : (resolvePolicy st topic).is_dropped = true) :
    publish env fuel st topic data sender priority = (st, none) := by
  unfold publish
  rw [(tracePublishGate_none_iff st topic sender priority).mpr h]

/-- Witness for C10: CRITICAL publish on the DROP-policy topic 0. -/
theorem C10_witness :
    publish envNoop 5 routerDrop 0 1 2 .CRITICAL = (routerDrop, none) :=
  C10_drop_topic_noop envNoop 5 routerDrop 0 1 2 .CRITICAL (by decide)

end FlowStrategy
